import Mathlib

/-!
Shallow embedding of `src/asio/include/asio/cancellation_signal.hpp`
(classes `cancellation_signal`, `cancellation_slot`, `cancellation_state`
and `detail::cancellation_handler`).

Model A ("heap model", this part of the file): signals are cells in a heap,
identified by their index.  A `cancellation_slot` is a pointer to the
`handler_` field of one signal (or the null pointer for the
default-constructed slot), so it is modelled as `Option Nat`.  A
`cancellation_state` installs its `impl` object — holding the `cancelled_`
flag and the child `cancellation_signal signal_` — into the parent slot's
handler storage; impl objects are cells of a second heap component.  A ghost
`trace` records which signals had `emit()` invoked on them and which
user-installed handlers were called; it is pure instrumentation and is never
read by any operation.

Model B (further down) refines the handler-storage aspects that model A
abstracts away: `cancellation_slot::prepare_memory`, the memory-block
reuse in `emplace`, and allocation failure.
-/

namespace AsioCancel

/-- Ghost observation events: `emitted s` is recorded whenever
`cancellation_signal::emit` is invoked on signal `s`; `called i` is recorded
when a user-installed handler with identity `i` is invoked. -/
inductive Event where
  | emitted (s : Nat)
  | called (i : Nat)
deriving DecidableEq

/-- A type-erased handler installed in a signal (`detail::cancellation_handler`).
`user i` is an arbitrary caller-supplied callable, identified by `i`; calling
it records `Event.called i`.  `stateImpl i` is a `cancellation_state::impl`
forwarding handler, stored (as in the C++ source) in the parent signal's
handler storage; `i` indexes the impl heap. -/
inductive Handler where
  | user (i : Nat)
  | stateImpl (i : Nat)
deriving DecidableEq

/-- The state of one `cancellation_signal` cell: alive with its `handler_`
field (`none` = no handler installed, as set by the default constructor), or
destroyed. -/
inductive SigState where
  | live (hd : Option Handler)
  | dead
deriving DecidableEq

/-- A `cancellation_state::impl` object: the `cancelled_` flag and the
child signal `signal_` (identified by its heap index). -/
structure StateImpl where
  cancelled : Bool
  signalId : Nat
deriving DecidableEq

/-- The heap: the signal cells, the `cancellation_state::impl` objects
(`none` = destroyed), and the ghost event trace (most recent first). -/
structure Heap where
  signals : List SigState
  impls : List (Option StateImpl)
  trace : List Event
deriving DecidableEq

/-- A `cancellation_slot`: a pointer to the `handler_` field of one signal,
or null (`none`) for a default-constructed, unconnected slot. -/
abbrev Slot := Option Nat

/-- The `impl_` pointer held by a `cancellation_state` (null when the state
was constructed from an unconnected slot). -/
abbrev StateObj := Option Nat

/-- Overwrite signal cell `s`. -/
def setSignal (h : Heap) (s : Nat) (g : SigState) : Heap :=
  { h with signals := h.signals.set s g }

/-- Overwrite impl cell `i`. -/
def setImpl (h : Heap) (i : Nat) (v : Option StateImpl) : Heap :=
  { h with impls := h.impls.set i v }

/-- Record a ghost event. -/
def pushEvent (h : Heap) (e : Event) : Heap :=
  { h with trace := e :: h.trace }

/-- `cancellation_signal::cancellation_signal()`: allocate a fresh signal
with `handler_(0)`; returns the new heap and the signal's identity. -/
def newSignal (h : Heap) : Heap × Nat :=
  ({ h with signals := h.signals ++ [SigState.live none] }, h.signals.length)

/-- `cancellation_signal::slot()`: a slot pointing at this signal's
`handler_` field. -/
def signalSlot (s : Nat) : Slot := some s

/-- `cancellation_slot::cancellation_slot()`: the default-constructed,
unconnected slot (`handler_(0)`). -/
def unconnectedSlot : Slot := none

/-- `operator==(const cancellation_slot&, const cancellation_slot&)`:
`lhs.handler_ == rhs.handler_`, i.e. pointer equality of the referenced
storage locations (two distinct live signals have distinct `handler_`
addresses; both null pointers compare equal). -/
def slotEq (a b : Slot) : Bool :=
  match a, b with
  | none, none => true
  | some x, some y => x == y
  | _, _ => false

/-- `cancellation_slot::is_connected()`: `handler_ != 0`. -/
def is_connected (sl : Slot) : Bool := sl.isSome

/-- `cancellation_slot::has_handler()`: `handler_ != 0 && *handler_ != 0`. -/
def has_handler (h : Heap) (sl : Slot) : Bool :=
  match sl with
  | none => false
  | some s =>
    match h.signals[s]? with
    | some (SigState.live (some _)) => true
    | _ => false

/-- `cancellation_signal::emit()`: `if (handler_) handler_->call();`.
A `user` handler's `call()` runs `handler_()`, recorded as `Event.called`.
A `stateImpl` handler's `call()` is `cancellation_state::impl::operator()`:
`cancelled_ = true; signal_.emit();`, hence the recursion, bounded by
`fuel` (`none` = out of fuel, or the signal/impl cell is invalid, which is
undefined behaviour in the C++ source).  The `Event.emitted` ghost record is
made on every invocation, handler installed or not. -/
def emit : Nat → Heap → Nat → Option Heap
  | 0, _, _ => none
  | fuel+1, h, s =>
    match h.signals[s]? with
    | some (SigState.live hd) =>
      let h0 := pushEvent h (Event.emitted s)
      match hd with
      | none => some h0
      | some (Handler.user i) => some (pushEvent h0 (Event.called i))
      | some (Handler.stateImpl i) =>
        match h0.impls[i]? with
        | some (some r) =>
          emit fuel (setImpl h0 i (some { r with cancelled := true })) r.signalId
        | _ => none
    | _ => none

/-- `cancellation_signal::~cancellation_signal()` for signal `s`:
`if (handler_) ::operator delete(handler_->destroy().first);` and the cell
itself goes away (marked `dead`).  `destroy()` on a boxed
`cancellation_state::impl` runs `~cancellation_handler`, which destroys the
impl member, which destroys the impl's child `cancellation_signal signal_` —
hence the recursion on the child, bounded by `fuel`. -/
def destroySig : Nat → Heap → Nat → Option Heap
  | 0, _, _ => none
  | fuel+1, h, s =>
    match h.signals[s]? with
    | some (SigState.live none) => some (setSignal h s SigState.dead)
    | some (SigState.live (some (Handler.user _))) =>
      some (setSignal h s SigState.dead)
    | some (SigState.live (some (Handler.stateImpl i))) =>
      match h.impls[i]? with
      | some (some r) =>
        match destroySig fuel h r.signalId with
        | some h2 => some (setSignal (setImpl h2 i none) s SigState.dead)
        | none => none
      | _ => none
    | _ => none

/-- `handler->destroy()` on an installed handler box (the destructor side:
resources of the callable are released; the memory block itself is model B's
concern).  Destroying a boxed `cancellation_state::impl` destroys the impl
and, recursively, its child signal. -/
def destroyHandlerBox (fuel : Nat) (h : Heap) (hd : Handler) : Option Heap :=
  match hd with
  | Handler.user _ => some h
  | Handler.stateImpl i =>
    match h.impls[i]? with
    | some (some r) =>
      match destroySig fuel h r.signalId with
      | some h2 => some (setImpl h2 i none)
      | none => none
    | _ => none

/-- `cancellation_slot::clear()`:
`if (handler_ != 0 && *handler_ != 0) { delete (*handler_)->destroy().first; *handler_ = 0; }`.
Note there is no assertion: on an unconnected slot (`handler_ == 0`) the
call silently does nothing.  `none` marks undefined behaviour (a dangling
slot whose signal is dead / out of range, or fuel exhaustion). -/
def clear (fuel : Nat) (h : Heap) (sl : Slot) : Option Heap :=
  match sl with
  | none => some h
  | some s =>
    match h.signals[s]? with
    | some (SigState.live none) => some h
    | some (SigState.live (some hd)) =>
      match destroyHandlerBox fuel h hd with
      | some h1 => some (setSignal h1 s (SigState.live none))
      | none => none
    | _ => none

/-- `cancellation_slot::emplace<Handler>(...)` installing a user handler with
identity `i` (model A view: no sizes; see model B for the memory path).
`prepare_memory` first runs `assert(handler_)` — modelled by the `none`
result on an unconnected slot — then, if a handler is installed, destroys it
(`(*handler_)->destroy(); *handler_ = 0;`); finally the new box is
constructed and installed (`*handler_ = handler_obj;`). -/
def emplaceUser (fuel : Nat) (h : Heap) (sl : Slot) (i : Nat) : Option Heap :=
  match sl with
  | none => none
  | some s =>
    match h.signals[s]? with
    | some (SigState.live hd) =>
      match (match hd with
             | none => some h
             | some old => destroyHandlerBox fuel h old) with
      | some h1 => some (setSignal h1 s (SigState.live (some (Handler.user i))))
      | none => none
    | _ => none

/-- `cancellation_state::cancellation_state(slot)`:
`impl_(slot.is_connected() ? &slot.template emplace<impl>() : 0)`.
On a connected slot: the old handler (if any) is destroyed by
`prepare_memory`, a fresh `impl` is constructed — its member
`signal_` is a fresh signal and `cancelled_(false)` — and the boxed impl is
installed into the parent slot.  Returns the new heap and the `impl_`
pointer. -/
def mkState (fuel : Nat) (h : Heap) (sl : Slot) : Option (Heap × StateObj) :=
  match sl with
  | none => some (h, none)
  | some s =>
    match h.signals[s]? with
    | some (SigState.live hd) =>
      match (match hd with
             | none => some h
             | some old => destroyHandlerBox fuel h old) with
      | some h1 =>
        some ({ h1 with
                signals := (h1.signals ++ [SigState.live none]).set s
                  (SigState.live (some (Handler.stateImpl h1.impls.length))),
                impls := h1.impls ++
                  [some { cancelled := false, signalId := h1.signals.length }] },
              some h1.impls.length)
      | none => none
    | _ => none

/-- `cancellation_state::slot()`:
`return impl_ ? impl_->signal_.slot() : cancellation_slot();`. -/
def stateSlot (h : Heap) (st : StateObj) : Slot :=
  match st with
  | none => none
  | some i =>
    match h.impls[i]? with
    | some (some r) => some r.signalId
    | _ => none

/-- `cancellation_state::cancelled()`:
`return impl_ ? impl_->cancelled_ : false;`. -/
def cancelled (h : Heap) (st : StateObj) : Bool :=
  match st with
  | none => false
  | some i =>
    match h.impls[i]? with
    | some (some r) => r.cancelled
    | _ => false

/-- Destruction of a `cancellation_state` object itself.  The class declares
no destructor and its only member is the raw pointer `impl_`, so the
implicitly-defined destructor does nothing to the heap: the boxed impl (and
the child signal inside it) is owned by the parent slot's handler storage,
not by the state object. -/
def stateDestruct (h : Heap) (_st : StateObj) : Heap := h

/-- Construct a chain of `n` `cancellation_state`s, each from the previous
state's `slot()` (the first from `sl`), as described by the spec's chaining
protocol.  Returns the final heap and the list of state objects, outermost
first. -/
def buildChain : Nat → Nat → Heap → Slot → Option (Heap × List StateObj)
  | 0, _, h, _ => some (h, [])
  | n+1, fuel, h, sl =>
    match mkState fuel h sl with
    | some (h1, st) =>
      match buildChain n fuel h1 (stateSlot h1 st) with
      | some (h2, sts) => some (h2, st :: sts)
      | none => none
    | none => none

/-- `k` successive calls of `cancellation_signal::emit()` on signal `s`. -/
def emitN (fuel : Nat) : Nat → Heap → Nat → Option Heap
  | 0, h, _ => some h
  | k+1, h, s =>
    match emit fuel h s with
    | some h1 => emitN fuel k h1 s
    | none => none

/-- Number of `Event.emitted s` records in a trace: how often `emit()` was
invoked on signal `s`. -/
def countEmitted (s : Nat) : List Event → Nat
  | [] => 0
  | Event.emitted t :: tr => (if s = t then 1 else 0) + countEmitted s tr
  | _ :: tr => countEmitted s tr

/-- Number of `Event.called i` records in a trace: how often the user
handler `i` was invoked. -/
def countCalled (i : Nat) : List Event → Nat
  | [] => 0
  | Event.called j :: tr => (if i = j then 1 else 0) + countCalled i tr
  | _ :: tr => countCalled i tr

/-!
Model B: the handler-storage level of `cancellation_slot`.  One slot's
target storage (`*handler_`) is modelled together with an allocator.
A memory block is identified by a `Nat`; `::operator new` draws fresh
identities from `nextBlk` and may fail (`allocOk = false` ⇒ it throws
`std::bad_alloc`), as may the handler's constructor (`ctorOk = false`).
`liveBlocks` is the ghost set of currently allocated blocks (identity,
size); `destroyedH` is the ghost list of handler identities whose
`destroy()` has run.
-/

/-- An installed handler box as seen through `*handler_`: the identity of
the boxed handler object, the backing memory block (`none` would be the null
pointer) and the recorded allocation size
(`detail::cancellation_handler::size_`, always the size of the block the
box was constructed into). -/
structure HBox where
  hid : Nat
  blk : Option Nat
  blkSize : Nat
deriving DecidableEq

/-- The storage-level state of one signal/slot pair: the signal's
`handler_` target plus the allocator's ghost bookkeeping. -/
structure MSt where
  cur : Option HBox
  nextBlk : Nat
  liveBlocks : List (Nat × Nat)
  destroyedH : List Nat
deriving DecidableEq

/-- Result of `cancellation_slot::prepare_memory(size)`: the assertion
`assert(handler_)` fires, or `::operator new` throws (`oom`, with the state
after unwinding), or a block (identity, size) is ready for the new box. -/
inductive PrepResult where
  | assertFail
  | oom (st : MSt)
  | ok (st : MSt) (blk : Option Nat) (sz : Nat)
deriving DecidableEq

/-- Result of `cancellation_slot::emplace`: the assertion in
`prepare_memory` fires, or an allocation/construction failure propagates
(`oom`, with the state after unwinding), or the new handler is installed. -/
inductive EmplaceResult where
  | assertFail
  | oom (st : MSt)
  | ok (st : MSt)
deriving DecidableEq

/-- `::operator delete(p)`: remove block `p` from the allocator's ghost live
set (deleting the null pointer is a no-op). -/
def removeBlk (b : Option Nat) (l : List (Nat × Nat)) : List (Nat × Nat) :=
  match b with
  | none => l
  | some x => l.filter (fun p => p.1 != x)

/-- `cancellation_slot::prepare_memory(size)`:
`assert(handler_); pair mem; if (*handler_) { mem = (*handler_)->destroy(); *handler_ = 0; }
if (size > mem.second) { ::operator delete(mem.first); mem.first = ::operator new(size); mem.second = size; }
return mem;`.  `connected` is whether `handler_ != 0`; `allocOk` is whether
`::operator new` succeeds if it is reached. -/
def prepare_memory (connected : Bool) (st : MSt) (size : Nat) (allocOk : Bool) :
    PrepResult :=
  if !connected then PrepResult.assertFail
  else
    let stmem :=
      match st.cur with
      | some box =>
        ({ st with cur := none, destroyedH := box.hid :: st.destroyedH },
         box.blk, box.blkSize)
      | none => (st, none, 0)
    let st1 := stmem.1
    let mem := stmem.2
    if size > mem.2 then
      let st2 := { st1 with liveBlocks := removeBlk mem.1 st1.liveBlocks }
      if allocOk then
        PrepResult.ok
          { st2 with nextBlk := st2.nextBlk + 1,
                     liveBlocks := (st2.nextBlk, size) :: st2.liveBlocks }
          (some st2.nextBlk) size
      else PrepResult.oom st2
    else PrepResult.ok st1 mem.1 mem.2

/-- `cancellation_slot::emplace<Handler>(args...)`:
`mem = prepare_memory(sizeof(cancellation_handler<Handler>));
auto_delete del = { mem.first };
handler_obj = new (del.p) cancellation_handler<Handler>(mem.second, args...);
del.p = 0; *handler_ = handler_obj;`.
`size` is `sizeof(cancellation_handler<Handler>)`, `hid` the identity of the
new handler object, `ctorOk` whether its constructor succeeds.  If the
constructor throws, `auto_delete` releases the block and the exception
propagates. -/
def emplaceB (connected : Bool) (st : MSt) (size hid : Nat)
    (allocOk ctorOk : Bool) : EmplaceResult :=
  match prepare_memory connected st size allocOk with
  | PrepResult.assertFail => EmplaceResult.assertFail
  | PrepResult.oom st1 => EmplaceResult.oom st1
  | PrepResult.ok st1 blk sz =>
    if ctorOk then
      EmplaceResult.ok
        { st1 with cur := some { hid := hid, blk := blk, blkSize := sz } }
    else
      EmplaceResult.oom { st1 with liveBlocks := removeBlk blk st1.liveBlocks }

/-- `cancellation_slot::clear()` at the storage level:
`if (handler_ != 0 && *handler_ != 0) { ::operator delete((*handler_)->destroy().first); *handler_ = 0; }`.
The function contains no assertion; `none` would mark an assertion/panic
outcome and is never produced — on an unconnected slot the call returns with
the state untouched. -/
def clearB (connected : Bool) (st : MSt) : Option MSt :=
  if connected then
    match st.cur with
    | some box =>
      some { st with cur := none,
                     destroyedH := box.hid :: st.destroyedH,
                     liveBlocks := removeBlk box.blk st.liveBlocks }
    | none => some st
  else some st

/-- `cancellation_signal::emit()` at the storage level: returns the state
(unchanged) and the identity of the handler that gets invoked, if any. -/
def emitB (st : MSt) : MSt × Option Nat :=
  match st.cur with
  | some box => (st, some box.hid)
  | none => (st, none)

/-!
Helper lemmas.
-/

theorem destroySig_pres : ∀ fuel h s h', destroySig fuel h s = some h' →
    h'.signals.length = h.signals.length ∧ h'.impls.length = h.impls.length ∧
    h'.trace = h.trace := by
  intro fuel
  induction fuel with
  | zero => intro h s h' hc; simp [destroySig] at hc
  | succ n ih =>
    intro h s h' hc
    simp only [destroySig] at hc
    split at hc
    · cases hc; simp [setSignal]
    · cases hc; simp [setSignal]
    · rename_i i hsig
      split at hc
      · rename_i r himp
        split at hc
        · rename_i h2 hd
          cases hc
          have := ih h r.signalId h2 hd
          simp [setSignal, setImpl, this]
        · cases hc
      · cases hc
    · cases hc

theorem destroyHandlerBox_pres (fuel : Nat) (h : Heap) (hd : Handler) (h' : Heap)
    (hc : destroyHandlerBox fuel h hd = some h') :
    h'.signals.length = h.signals.length ∧ h'.impls.length = h.impls.length ∧
    h'.trace = h.trace := by
  cases hd with
  | user i => simp [destroyHandlerBox] at hc; cases hc; exact ⟨rfl, rfl, rfl⟩
  | stateImpl i =>
    simp only [destroyHandlerBox] at hc
    split at hc
    · rename_i r himp
      split at hc
      · rename_i h2 hdes
        cases hc
        have := destroySig_pres fuel h r.signalId h2 hdes
        simp [setImpl, this]
      · cases hc
    · cases hc

theorem mkState_spec (fuel : Nat) (h h' : Heap) (p : Nat) (st : StateObj)
    (hc : mkState fuel h (signalSlot p) = some (h', st)) :
    st = some h.impls.length ∧
    p < h.signals.length ∧
    h'.signals.length = h.signals.length + 1 ∧
    h'.impls.length = h.impls.length + 1 ∧
    h'.trace = h.trace ∧
    h'.signals[p]? =
      some (SigState.live (some (Handler.stateImpl h.impls.length))) ∧
    h'.impls[h.impls.length]? =
      some (some { cancelled := false, signalId := h.signals.length }) ∧
    h'.signals[h.signals.length]? = some (SigState.live none) := by
  simp only [mkState, signalSlot] at hc
  split at hc
  · rename_i hd hsig
    have hp : p < h.signals.length := by
      have := List.getElem?_eq_some_iff.mp hsig
      exact this.1
    split at hc
    · rename_i h1 hdes
      have hpres : h1.signals.length = h.signals.length ∧
          h1.impls.length = h.impls.length ∧ h1.trace = h.trace := by
        cases hd with
        | none => cases hdes; exact ⟨rfl, rfl, rfl⟩
        | some old => exact destroyHandlerBox_pres fuel h old h1 hdes
      obtain ⟨hsl, hil, htr⟩ := hpres
      cases hc
      have hp1 : p < h1.signals.length := hsl ▸ hp
      have hpc : p ≠ h1.signals.length := Nat.ne_of_lt hp1
      refine ⟨by rw [hil], hp, ?_, ?_, htr, ?_, ?_, ?_⟩
      · simp [hsl]
      · simp [hil]
      · rw [hil]
        exact List.getElem?_set_self (by simp; omega)
      · dsimp only
        rw [← hil, List.getElem?_concat_length, hsl]
      · dsimp only
        rw [List.getElem?_set_ne (by omega), ← hsl,
          List.getElem?_concat_length]
    · cases hc
  · cases hc

theorem emit_impl_step (g : Heap) (p i c : Nat) (b : Bool)
    (h1 : g.signals[p]? = some (SigState.live (some (Handler.stateImpl i))))
    (h2 : g.impls[i]? = some (some { cancelled := b, signalId := c }))
    (h3 : g.signals[c]? = some (SigState.live none)) :
    emit 2 g p =
      some (pushEvent (setImpl (pushEvent g (Event.emitted p)) i
        (some { cancelled := true, signalId := c })) (Event.emitted c)) := by
  have e1 : (pushEvent g (Event.emitted p)).impls[i]? = g.impls[i]? := rfl
  have e2 : (setImpl (pushEvent g (Event.emitted p)) i
      (some { cancelled := true, signalId := c })).signals[c]? = g.signals[c]? := rfl
  show emit (0+1+1) g p = _
  rw [emit, h1]
  simp only []
  rw [e1, h2]
  simp only []
  rw [emit]
  rw [e2, h3]

/-- C1: for a state `s` constructed from a connected parent slot `p`,
`s.cancelled()` is false before any `emit()` on `p`'s signal; after exactly
one `emit()` on `p`, `s.cancelled()` is true and the child signal returned
by `s.slot()` has had `emit()` invoked on it exactly once more than before;
a second `emit()` on `p` leaves `cancelled()` true and emits the child a
second time (the flag is a monotonic latch, never reset). -/
theorem state_observes_parent_emit (fuel : Nat) (h h' : Heap) (p : Nat)
    (st : StateObj) (hc : mkState fuel h (signalSlot p) = some (h', st)) :
    cancelled h' st = false ∧
    ∃ c, stateSlot h' st = signalSlot c ∧
      ∃ h2, emit 2 h' p = some h2 ∧ cancelled h2 st = true ∧
        countEmitted c h2.trace = countEmitted c h'.trace + 1 ∧
        ∃ h3, emit 2 h2 p = some h3 ∧ cancelled h3 st = true ∧
          countEmitted c h3.trace = countEmitted c h'.trace + 2 := by
  obtain ⟨hst, hp, hslen, hilen, htr, hsigp, himpl, hsigc⟩ :=
    mkState_spec fuel h h' p st hc
  subst hst
  set i := h.impls.length with hi
  set c := h.signals.length with hcdef
  have hilt : i < h'.impls.length := by omega
  have hpc : c ≠ p := by omega
  refine ⟨by simp [cancelled, himpl], c,
    by simp [stateSlot, himpl, signalSlot], ?_⟩
  have hstep := emit_impl_step h' p i c false hsigp himpl hsigc
  refine ⟨_, hstep, ?_, ?_, ?_⟩
  · simp [cancelled, pushEvent, setImpl,
      List.getElem?_set_self (by simpa using hilt)]
  · simp [pushEvent, setImpl, countEmitted, hpc]
    omega
  · set h2 := pushEvent (setImpl (pushEvent h' (Event.emitted p)) i
      (some { cancelled := true, signalId := c })) (Event.emitted c) with hh2
    have g1 : h2.signals[p]? =
        some (SigState.live (some (Handler.stateImpl i))) := by
      simpa [hh2, pushEvent, setImpl] using hsigp
    have g2 : h2.impls[i]? = some (some { cancelled := true, signalId := c }) := by
      simp [hh2, pushEvent, setImpl,
        List.getElem?_set_self (by simpa using hilt)]
    have g3 : h2.signals[c]? = some (SigState.live none) := by
      simpa [hh2, pushEvent, setImpl] using hsigc
    have hstep2 := emit_impl_step h2 p i c true g1 g2 g3
    refine ⟨_, hstep2, ?_, ?_⟩
    · have hlt2 : i < h2.impls.length := by
        rw [hh2]; simp [pushEvent, setImpl]; omega
      simp [cancelled, pushEvent, setImpl, List.getElem?_set_self hlt2]
    · simp [hh2, pushEvent, setImpl, countEmitted, hpc]
      omega

/-- Witness for C1: a fresh signal in an otherwise empty heap; the state
construction evaluates concretely and the theorem applies to it. -/
theorem state_observes_parent_emit_witness :
    mkState 1 { signals := [SigState.live none], impls := [], trace := [] }
        (signalSlot 0) =
      some ({ signals := [SigState.live (some (Handler.stateImpl 0)),
                          SigState.live none],
              impls := [some { cancelled := false, signalId := 1 }],
              trace := [] }, some 0) ∧
    cancelled { signals := [SigState.live (some (Handler.stateImpl 0)),
                            SigState.live none],
                impls := [some { cancelled := false, signalId := 1 }],
                trace := [] } (some 0) = false :=
  ⟨by decide,
   (state_observes_parent_emit 1
     { signals := [SigState.live none], impls := [], trace := [] }
     { signals := [SigState.live (some (Handler.stateImpl 0)),
                   SigState.live none],
       impls := [some { cancelled := false, signalId := 1 }],
       trace := [] } 0 (some 0) (by decide)).1⟩


/-- Shape of a chain of nested `cancellation_state`s as produced by
constructing each state from the previous state's `slot()`: signal `s`
holds the forwarding handler of impl `i`, whose child signal holds the next
level, with impl indices bounded below by `ilow` (fresh impls have strictly
increasing indices); the innermost child has no handler installed. -/
def ChainInv (sg : List SigState) (im : List (Option StateImpl)) :
    Nat → Nat → List StateObj → Prop
  | _, s, [] => sg[s]? = some (SigState.live none)
  | ilow, s, st :: rest => ∃ i r, st = some i ∧ ilow ≤ i ∧
      sg[s]? = some (SigState.live (some (Handler.stateImpl i))) ∧
      im[i]? = some (some r) ∧
      ChainInv sg im (i+1) r.signalId rest

theorem mkState_empty (fuel : Nat) (h : Heap) (s : Nat)
    (hsig : h.signals[s]? = some (SigState.live none)) :
    mkState fuel h (signalSlot s) =
      some ({ h with
        signals := (h.signals ++ [SigState.live none]).set s
          (SigState.live (some (Handler.stateImpl h.impls.length))),
        impls := h.impls ++
          [some { cancelled := false, signalId := h.signals.length }] },
        some h.impls.length) := by
  simp only [mkState, signalSlot, hsig]

theorem ChainInv_set_low : ∀ (sts : List StateObj) sg im ilow s j v, j < ilow →
    ChainInv sg im ilow s sts → ChainInv sg (im.set j v) ilow s sts := by
  intro sts
  induction sts with
  | nil => intro sg im ilow s j v _ hc; exact hc
  | cons st rest ih =>
    intro sg im ilow s j v hj hc
    obtain ⟨i, r, h1, h2, h3, h4, h5⟩ := hc
    exact ⟨i, r, h1, h2, h3,
      by rw [List.getElem?_set_ne (by omega)]; exact h4,
      ih sg im (i+1) r.signalId j v (by omega) h5⟩

theorem buildChain_build : ∀ (n fuel : Nat) (h : Heap) (s : Nat),
    h.signals[s]? = some (SigState.live none) →
    ∃ hn sts, buildChain n fuel h (signalSlot s) = some (hn, sts) ∧
      sts.length = n ∧
      ChainInv hn.signals hn.impls h.impls.length s sts ∧
      h.signals.length ≤ hn.signals.length ∧
      (∀ x, x < h.signals.length → x ≠ s → hn.signals[x]? = h.signals[x]?) ∧
      (∀ j, j < h.impls.length → hn.impls[j]? = h.impls[j]?) := by
  intro n
  induction n with
  | zero =>
    intro fuel h s hsig
    exact ⟨h, [], rfl, rfl, hsig, Nat.le_refl _,
      fun x _ _ => rfl, fun j _ => rfl⟩
  | succ n ih =>
    intro fuel h s hsig
    have hs : s < h.signals.length := (List.getElem?_eq_some_iff.mp hsig).1
    set i := h.impls.length with hidef
    set c := h.signals.length with hcdef
    set H2 : Heap := { h with
      signals := (h.signals ++ [SigState.live none]).set s
        (SigState.live (some (Handler.stateImpl i))),
      impls := h.impls ++
        [some { cancelled := false, signalId := c }] } with hH2
    have hmk := mkState_empty fuel h s hsig
    have hH2c : H2.signals[c]? = some (SigState.live none) := by
      rw [hH2]
      dsimp only
      rw [List.getElem?_set_ne (by omega), hcdef, List.getElem?_concat_length]
    have hH2s : H2.signals[s]? =
        some (SigState.live (some (Handler.stateImpl i))) := by
      rw [hH2]
      dsimp only
      exact List.getElem?_set_self (by simp; omega)
    have hH2i : H2.impls[i]? =
        some (some { cancelled := false, signalId := c }) := by
      rw [hH2]
      dsimp only
      rw [hidef, List.getElem?_concat_length]
    have hslot : stateSlot H2 (some i) = signalSlot c := by
      simp [stateSlot, hH2i, signalSlot]
    obtain ⟨hn, sts, hb, hlen, hinv, hmono, hpre, hpri⟩ := ih fuel H2 c hH2c
    have hH2len : H2.signals.length = c + 1 := by rw [hH2]; simp
    have hH2ilen : H2.impls.length = i + 1 := by rw [hH2]; simp
    refine ⟨hn, some i :: sts, ?_, by simp [hlen], ?_, ?_, ?_, ?_⟩
    · simp only [buildChain, hmk, hslot, hb]
    · refine ⟨i, { cancelled := false, signalId := c }, rfl, Nat.le_refl _,
        ?_, ?_, ?_⟩
      · rw [hpre s (by omega) (by omega), hH2s]
      · rw [hpri i (by omega), hH2i]
      · have := hinv
        rw [hH2ilen] at this
        exact this
    · omega
    · intro x hx hxs
      rw [hpre x (by omega) (by omega), hH2]
      dsimp only
      rw [List.getElem?_set_ne (by omega), List.getElem?_append_left hx]
    · intro j hj
      rw [hpri j (by omega), hH2]
      dsimp only
      rw [List.getElem?_append_left (by omega)]

theorem emit_chain : ∀ (sts : List StateObj) (h : Heap) (s ilow : Nat),
    ChainInv h.signals h.impls ilow s sts →
    ∃ h', emit (sts.length + 1) h s = some h' ∧
      h'.signals = h.signals ∧
      (∀ j, j < ilow → h'.impls[j]? = h.impls[j]?) ∧
      (∀ st ∈ sts, cancelled h' st = true) := by
  intro sts
  induction sts with
  | nil =>
    intro h s ilow hinv
    refine ⟨pushEvent h (Event.emitted s), ?_, rfl, fun j _ => rfl, by simp⟩
    show emit (0+1) h s = _
    rw [emit, hinv]
  | cons st rest ih =>
    intro h s ilow hinv
    obtain ⟨i, r, hsteq, hle, hsig, himp, hrest⟩ := hinv
    have hilt : i < h.impls.length := (List.getElem?_eq_some_iff.mp himp).1
    set h1 : Heap := setImpl (pushEvent h (Event.emitted s)) i
      (some { cancelled := true, signalId := r.signalId }) with hh1
    have hinv1 : ChainInv h1.signals h1.impls (i+1) r.signalId rest := by
      have hsg : h1.signals = h.signals := rfl
      have him : h1.impls = h.impls.set i
          (some { cancelled := true, signalId := r.signalId }) := rfl
      rw [hsg, him]
      exact ChainInv_set_low rest h.signals h.impls (i+1) r.signalId i _
        (by omega) hrest
    obtain ⟨h', he, hsg', hpres, hcan⟩ := ih h1 r.signalId (i+1) hinv1
    have hstep : emit ((st :: rest).length + 1) h s =
        emit (rest.length + 1) h1 r.signalId := by
      simp only [List.length_cons]
      rw [emit, hsig]
      simp only []
      have : (pushEvent h (Event.emitted s)).impls[i]? = h.impls[i]? := rfl
      rw [this, himp]
    refine ⟨h', ?_, ?_, ?_, ?_⟩
    · rw [hstep]
      exact he
    · rw [hsg']
      rfl
    · intro j hj
      rw [hpres j (by omega)]
      have : h1.impls = h.impls.set i
          (some { cancelled := true, signalId := r.signalId }) := rfl
      rw [this, List.getElem?_set_ne (by omega)]
    · intro st' hst'
      rcases List.mem_cons.mp hst' with h1' | h2'
      · subst h1'
        subst hsteq
        have : h'.impls[i]? = h1.impls[i]? := hpres i (by omega)
        simp only [cancelled, this, hh1, setImpl, pushEvent]
        rw [List.getElem?_set_self (by simpa using hilt)]
      · exact hcan st' h2'

/-- C2: construct a fresh root signal, then a chain of `n` states, each
from the previous level's `slot()`; a single `emit()` on the root makes
`cancelled()` true on every state of the chain. -/
theorem chain_single_emit_cancels_all (fuel n : Nat) (h0 : Heap) :
    ∃ hn sts h',
      buildChain n fuel (newSignal h0).1 (signalSlot (newSignal h0).2) =
        some (hn, sts) ∧
      sts.length = n ∧
      emit (n + 1) hn (newSignal h0).2 = some h' ∧
      ∀ st ∈ sts, cancelled h' st = true := by
  have hsig : (newSignal h0).1.signals[(newSignal h0).2]? =
      some (SigState.live none) := by
    simp [newSignal, List.getElem?_concat_length]
  obtain ⟨hn, sts, hb, hlen, hinv, _, _, _⟩ :=
    buildChain_build n fuel (newSignal h0).1 (newSignal h0).2 hsig
  obtain ⟨h', he, _, _, hcan⟩ :=
    emit_chain sts hn (newSignal h0).2 (newSignal h0).1.impls.length hinv
  refine ⟨hn, sts, h', hb, hlen, ?_, hcan⟩
  rw [← hlen]
  exact he

/-- Witness for C2: the chain of depth 2 grown from a fresh signal in the
empty heap. -/
theorem chain_single_emit_cancels_all_witness :
    ∃ hn sts h',
      buildChain 2 1 (newSignal { signals := [], impls := [], trace := [] }).1
          (signalSlot (newSignal { signals := [], impls := [], trace := [] }).2) =
        some (hn, sts) ∧
      sts.length = 2 ∧
      emit 3 hn (newSignal { signals := [], impls := [], trace := [] }).2 =
        some h' ∧
      ∀ st ∈ sts, cancelled h' st = true :=
  chain_single_emit_cancels_all 1 2 { signals := [], impls := [], trace := [] }

/-- C7: slot equality is identity of the referenced storage location: two
slots from the same signal are equal, slots from distinct signals are never
equal, and two default-constructed (unconnected) slots are equal. -/
theorem slot_equality_identity (s t : Nat) :
    slotEq (signalSlot s) (signalSlot s) = true ∧
    (s ≠ t → slotEq (signalSlot s) (signalSlot t) = false) ∧
    slotEq unconnectedSlot unconnectedSlot = true := by
  refine ⟨by simp [slotEq, signalSlot], fun hne => ?_,
    by simp [slotEq, unconnectedSlot]⟩
  simp [slotEq, signalSlot, hne]

/-- Witness for C7 at the signals `0` and `1`. -/
theorem slot_equality_identity_witness :
    (0 : Nat) ≠ 1 ∧ slotEq (signalSlot 0) (signalSlot 1) = false :=
  ⟨by decide, (slot_equality_identity 0 1).2.1 (by decide)⟩

/-- C8: a state constructed from an unconnected parent slot creates no
child signal (the heap is unchanged and `impl_` is null), its `slot()` is
unconnected, and its `cancelled()` is false on every heap whatsoever — in
particular after any emissions on any other signal. -/
theorem state_from_unconnected_inert (fuel : Nat) (h : Heap) :
    mkState fuel h unconnectedSlot = some (h, none) ∧
    (∀ h' : Heap, stateSlot h' none = unconnectedSlot ∧
      is_connected (stateSlot h' none) = false ∧
      cancelled h' none = false) :=
  ⟨rfl, fun _ => ⟨rfl, rfl, rfl⟩⟩

/-- C9: a freshly constructed signal has no handler; `emit()` on a signal
with no handler — freshly constructed or after `clear()` — returns normally
and only appends the ghost `emitted` record, leaving signals and impls
untouched and invoking nothing; and `clear()` is idempotent: clearing an
already-empty connected slot changes nothing. -/
theorem emit_empty_noop_clear_idem (fuel fuel2 : Nat) (h : Heap) (s : Nat) :
    ((newSignal h).1.signals[(newSignal h).2]? = some (SigState.live none)) ∧
    (h.signals[s]? = some (SigState.live none) →
      emit (fuel+1) h s = some (pushEvent h (Event.emitted s)) ∧
      (pushEvent h (Event.emitted s)).signals = h.signals ∧
      (pushEvent h (Event.emitted s)).impls = h.impls ∧
      clear fuel h (signalSlot s) = some h) ∧
    (∀ hd h1, h.signals[s]? = some (SigState.live (some hd)) →
      clear fuel h (signalSlot s) = some h1 →
      h1.signals[s]? = some (SigState.live none) ∧
      clear fuel2 h1 (signalSlot s) = some h1 ∧
      emit (fuel2+1) h1 s = some (pushEvent h1 (Event.emitted s))) := by
  refine ⟨by simp [newSignal, List.getElem?_concat_length], fun hsig => ?_,
    fun hd h1 hsig hcl => ?_⟩
  · refine ⟨?_, rfl, rfl, ?_⟩
    · show emit (fuel+1) h s = _
      rw [emit, hsig]
    · simp only [clear, signalSlot, hsig]
  · have hs : s < h.signals.length := (List.getElem?_eq_some_iff.mp hsig).1
    simp only [clear, signalSlot, hsig] at hcl
    split at hcl
    · rename_i h0 hdes
      cases hcl
      have hlen := destroyHandlerBox_pres fuel h hd h0 hdes
      have hset : (setSignal h0 s (SigState.live none)).signals[s]? =
          some (SigState.live none) := by
        simp only [setSignal]
        exact List.getElem?_set_self (by omega)
      refine ⟨hset, ?_, ?_⟩
      · simp only [clear, signalSlot, hset]
      · rw [emit, hset]
    · cases hcl

/-- A heap holding one fresh signal with no handler. -/
def oneSigHeap : Heap :=
  { signals := [SigState.live none], impls := [], trace := [] }

/-- Witness for C9: `emit()` on the fresh signal `0` only appends the ghost
record. -/
theorem emit_empty_noop_clear_idem_witness :
    oneSigHeap.signals[0]? = some (SigState.live none) ∧
    emit 1 oneSigHeap 0 = some (pushEvent oneSigHeap (Event.emitted 0)) :=
  ⟨by decide, ((emit_empty_noop_clear_idem 0 0 oneSigHeap 0).2.1 (by decide)).1⟩

/-- Emission never writes to any signal's `handler_` field. -/
theorem emit_signals_frame : ∀ fuel (h : Heap) s h', emit fuel h s = some h' →
    h'.signals = h.signals := by
  intro fuel
  induction fuel with
  | zero => intro h s h' hc; simp [emit] at hc
  | succ n ih =>
    intro h s h' hc
    rw [emit] at hc
    split at hc
    · rename_i hd hsig
      split at hc
      · cases hc; rfl
      · cases hc; rfl
      · rename_i i
        simp only [] at hc
        split at hc
        · rename_i r himp
          have := ih _ _ _ hc
          rw [this]; rfl
        · cases hc
    · cases hc

/-- `has_handler` only reads the signals component. -/
theorem has_handler_congr (h h' : Heap) (hs : h'.signals = h.signals)
    (sl : Slot) : has_handler h' sl = has_handler h sl := by
  cases sl <;> simp [has_handler, hs]

/-- `k` successive emits on a signal holding user handler `i` succeed,
leave every `handler_` field unchanged and call the handler `k` times. -/
theorem emitN_user : ∀ (k fuel : Nat) (h : Heap) (s i : Nat),
    h.signals[s]? = some (SigState.live (some (Handler.user i))) →
    ∃ h', emitN (fuel+1) k h s = some h' ∧ h'.signals = h.signals ∧
      countCalled i h'.trace = countCalled i h.trace + k := by
  intro k
  induction k with
  | zero => intro fuel h s i hsig; exact ⟨h, rfl, rfl, rfl⟩
  | succ k ih =>
    intro fuel h s i hsig
    have hone : emit (fuel+1) h s =
        some (pushEvent (pushEvent h (Event.emitted s)) (Event.called i)) := by
      rw [emit, hsig]
    obtain ⟨h', he, hsg, hcnt⟩ := ih fuel (pushEvent (pushEvent h
      (Event.emitted s)) (Event.called i)) s i (by simpa [pushEvent] using hsig)
    refine ⟨h', ?_, by simpa [pushEvent] using hsg, ?_⟩
    · show emitN (fuel+1) (k+1) h s = some h'
      rw [emitN, hone]
      exact he
    · rw [hcnt]
      simp [pushEvent, countCalled]
      omega

/-- C10: `emit()` does not consume or clear the installed handler: any
successful emission leaves every signal's `handler_` field — hence every
slot's `has_handler()` — exactly as it was, and `k` successive `emit()`
calls on a signal holding user handler `i` invoke that same handler `k`
times. -/
theorem emit_preserves_handler (fuel k : Nat) (h : Heap) (s i : Nat) :
    (∀ h' : Heap, emit fuel h s = some h' →
      h'.signals = h.signals ∧ ∀ sl, has_handler h' sl = has_handler h sl) ∧
    (h.signals[s]? = some (SigState.live (some (Handler.user i))) →
      ∃ h', emitN (fuel+1) k h s = some h' ∧ h'.signals = h.signals ∧
        countCalled i h'.trace = countCalled i h.trace + k) := by
  constructor
  · intro h' hc
    have := emit_signals_frame fuel h s h' hc
    exact ⟨this, has_handler_congr h h' this⟩
  · exact emitN_user k fuel h s i

/-- A one-signal heap holding user handler `5`, used as concrete input. -/
def userHeap5 : Heap :=
  { signals := [SigState.live (some (Handler.user 5))], impls := [],
    trace := [] }

/-- Witness for C10: three emissions on a concrete one-signal heap. -/
theorem emit_preserves_handler_witness :
    userHeap5.signals[0]? = some (SigState.live (some (Handler.user 5))) ∧
    ∃ h', emitN 1 3 userHeap5 0 = some h' ∧
      h'.signals = userHeap5.signals ∧
      countCalled 5 h'.trace = countCalled 5 userHeap5.trace + 3 :=
  ⟨by decide, (emit_preserves_handler 0 3 userHeap5 0 5).2 (by decide)⟩

/-- The storage state of a freshly constructed signal. -/
def emptyMSt : MSt :=
  { cur := none, nextBlk := 0, liveBlocks := [], destroyedH := [] }

/-- The empty heap. -/
def emptyHeap : Heap := { signals := [], impls := [], trace := [] }

/-- C5 counterexample: `clear()` on an unconnected slot does NOT fail fast
— it returns normally with the state untouched (the code guards on
`handler_ != 0` and has no assertion), i.e. the call is silently ignored,
contradicting the claim that both `emplace` and `clear` panic. -/
theorem unconnected_clear_silent_cex :
    clearB false emptyMSt = some emptyMSt ∧
    clear 1 emptyHeap unconnectedSlot = some emptyHeap :=
  ⟨rfl, rfl⟩

/-- C5 amended: on an unconnected slot, `emplace` fails fast through the
`assert(handler_)` in `prepare_memory`, while `clear` is a silent no-op
that returns normally and changes nothing. -/
theorem unconnected_emplace_asserts_clear_noop (st st2 : MSt)
    (size hid fuel : Nat) (aO cO : Bool) (h : Heap) :
    emplaceB false st size hid aO cO = EmplaceResult.assertFail ∧
    prepare_memory false st size aO = PrepResult.assertFail ∧
    clearB false st2 = some st2 ∧
    emplaceUser fuel h unconnectedSlot hid = none ∧
    clear fuel h unconnectedSlot = some h :=
  ⟨rfl, rfl, rfl, rfl, rfl⟩

/-- Case shape of `emplace` on a connected slot: it never hits the
assertion; on failure the slot is left connected-empty; on success the new
box is installed with a block at least `size` large; and in either case a
previously installed handler has been destroyed first. -/
theorem emplaceB_shape (st : MSt) (size hid : Nat) (aO cO : Bool) :
    (match emplaceB true st size hid aO cO with
     | EmplaceResult.assertFail => False
     | EmplaceResult.oom st' => st'.cur = none ∧
         st'.destroyedH = (match st.cur with
           | some box => box.hid :: st.destroyedH
           | none => st.destroyedH)
     | EmplaceResult.ok st' =>
         (∃ blk sz, size ≤ sz ∧
           st'.cur = some { hid := hid, blk := blk, blkSize := sz }) ∧
         st'.destroyedH = (match st.cur with
           | some box => box.hid :: st.destroyedH
           | none => st.destroyedH)) := by
  rcases hc : st.cur with _ | box
  · by_cases h0 : 0 < size
    · cases aO
      · simp [emplaceB, prepare_memory, hc, h0, removeBlk]
      · cases cO
        · simp [emplaceB, prepare_memory, hc, h0, removeBlk]
        · simp [emplaceB, prepare_memory, hc, h0, removeBlk]
    · have h0' : size = 0 := by omega
      subst h0'
      cases cO
      · simp [emplaceB, prepare_memory, hc, removeBlk]
      · simp [emplaceB, prepare_memory, hc, removeBlk]
  · by_cases hsz : box.blkSize < size
    · cases aO
      · simp [emplaceB, prepare_memory, hc, hsz]
      · cases cO
        · simp [emplaceB, prepare_memory, hc, hsz]
        · simp [emplaceB, prepare_memory, hc, hsz]
    · cases cO
      · simp [emplaceB, prepare_memory, hc, hsz, removeBlk]
      · simp [emplaceB, prepare_memory, hc, hsz]
        omega



/-- C3: `emplace` on a connected, occupied slot first disposes the
existing handler via `destroy()` (its identity lands in `destroyedH` on
every outcome, and after a successful emplace `emit` invokes the new
handler, not the old one); it reuses the retained block exactly when the
new handler's size fits within the retained block's recorded size, and
otherwise releases the retained block and allocates a fresh block of the
required size. -/
theorem emplace_replaces_and_reuses (st : MSt) (box : HBox) (size hid : Nat)
    (aO cO : Bool) (hcur : st.cur = some box) :
    (∀ st', (emplaceB true st size hid aO cO = EmplaceResult.ok st' ∨
             emplaceB true st size hid aO cO = EmplaceResult.oom st') →
      box.hid ∈ st'.destroyedH) ∧
    (size ≤ box.blkSize →
      emplaceB true st size hid aO true =
        EmplaceResult.ok { st with
          cur := some { hid := hid, blk := box.blk, blkSize := box.blkSize },
          destroyedH := box.hid :: st.destroyedH }) ∧
    (box.blkSize < size →
      emplaceB true st size hid true true =
        EmplaceResult.ok
          { cur := some { hid := hid, blk := some st.nextBlk, blkSize := size },
            nextBlk := st.nextBlk + 1,
            liveBlocks := (st.nextBlk, size) :: removeBlk box.blk st.liveBlocks,
            destroyedH := box.hid :: st.destroyedH }) ∧
    (∀ st', emplaceB true st size hid aO cO = EmplaceResult.ok st' →
      emitB st' = (st', some hid)) := by
  refine ⟨?_, ?_, ?_, ?_⟩
  · intro st' hres
    have hs := emplaceB_shape st size hid aO cO
    rcases hres with hres | hres
    · rw [hres] at hs
      simp only [hcur] at hs
      rw [hs.2]
      exact List.mem_cons_self _ _
    · rw [hres] at hs
      simp only [hcur] at hs
      rw [hs.2]
      exact List.mem_cons_self _ _
  · intro hle
    simp [emplaceB, prepare_memory, hcur, Nat.not_lt.mpr hle]
  · intro hlt
    simp [emplaceB, prepare_memory, hcur, hlt]
  · intro st' hres
    have hs := emplaceB_shape st size hid aO cO
    rw [hres] at hs
    obtain ⟨⟨blk, sz, _, hcur'⟩, _⟩ := hs
    simp [emitB, hcur']

/-- A connected, occupied slot: handler `5` boxed in block `10` of size
`8`. -/
def sampleMSt : MSt :=
  { cur := some { hid := 5, blk := some 10, blkSize := 8 }, nextBlk := 11,
    liveBlocks := [(10, 8)], destroyedH := [] }

/-- Witness for C3: replacing handler `5` by a smaller handler `6` reuses
block `10`. -/
theorem emplace_replaces_and_reuses_witness :
    sampleMSt.cur = some { hid := 5, blk := some 10, blkSize := 8 } ∧
    emplaceB true sampleMSt 4 6 true true =
      EmplaceResult.ok { sampleMSt with
        cur := some { hid := 6, blk := some 10, blkSize := 8 },
        destroyedH := [5] } :=
  ⟨by decide,
   (emplace_replaces_and_reuses sampleMSt
     { hid := 5, blk := some 10, blkSize := 8 } 4 6 true true
     (by decide)).2.1 (by decide)⟩

/-- C4: `emplace` on a connected slot is atomic under allocation failure:
the failure propagates (`oom`) with the slot left connected-empty and any
previously installed handler disposed; on success the handler is fully
installed with a block of at least the required size; the assertion never
fires on a connected slot. -/
theorem emplace_alloc_failure_atomic (st : MSt) (size hid : Nat) (aO cO : Bool) :
    emplaceB true st size hid aO cO ≠ EmplaceResult.assertFail ∧
    (∀ st', emplaceB true st size hid aO cO = EmplaceResult.oom st' →
      st'.cur = none ∧
      ∀ box, st.cur = some box → box.hid ∈ st'.destroyedH) ∧
    (∀ st', emplaceB true st size hid aO cO = EmplaceResult.ok st' →
      ∃ blk sz, size ≤ sz ∧
        st'.cur = some { hid := hid, blk := blk, blkSize := sz }) := by
  have hs := emplaceB_shape st size hid aO cO
  refine ⟨?_, ?_, ?_⟩
  · intro hcontra
    rw [hcontra] at hs
    exact hs
  · intro st' hres
    rw [hres] at hs
    refine ⟨hs.1, ?_⟩
    intro box hbox
    rw [hs.2]
    simp [hbox]
  · intro st' hres
    rw [hres] at hs
    exact hs.1

/-- The state left behind when allocation fails while replacing handler
`5` with a larger one. -/
def sampleOomMSt : MSt :=
  { cur := none, nextBlk := 11, liveBlocks := [], destroyedH := [5] }

/-- Witness for C4: allocation failure while growing the handler leaves
the slot connected-empty. -/
theorem emplace_alloc_failure_atomic_witness :
    emplaceB true sampleMSt 12 6 false true = EmplaceResult.oom sampleOomMSt ∧
    sampleOomMSt.cur = none :=
  ⟨by decide,
   ((emplace_alloc_failure_atomic sampleMSt 12 6 false true).2.1 sampleOomMSt
     (by decide)).1⟩

/-- Heap after constructing a state from a fresh signal `0`: the impl is
installed in signal `0` and the child signal `1` is empty. -/
def stateBuiltHeap : Heap :=
  { signals := [SigState.live (some (Handler.stateImpl 0)), SigState.live none],
    impls := [some { cancelled := false, signalId := 1 }],
    trace := [] }

/-- `stateBuiltHeap` after installing user handler `7` through the state's
child slot. -/
def parentChildHeap : Heap :=
  { signals := [SigState.live (some (Handler.stateImpl 0)),
                SigState.live (some (Handler.user 7))],
    impls := [some { cancelled := false, signalId := 1 }],
    trace := [] }

/-- `parentChildHeap` after one `emit()` on the parent signal `0`. -/
def emittedAfterDestructHeap : Heap :=
  { signals := [SigState.live (some (Handler.stateImpl 0)),
                SigState.live (some (Handler.user 7))],
    impls := [some { cancelled := true, signalId := 1 }],
    trace := [Event.called 7, Event.emitted 1, Event.emitted 0] }

/-- C6 counterexample: `cancellation_state` declares no destructor and its
only member is the raw pointer `impl_`, so destroying the state object
changes nothing (`stateDestruct` is the identity on the heap); at this
concrete input the child signal and its installed handler `7` survive the
state's destruction, remain installed, and `emit()` on the parent still
invokes handler `7` — the child signal is not destroyed together with the
state, contrary to the claim. -/
theorem state_destruction_keeps_child_cex :
    mkState 1 (newSignal emptyHeap).1 (signalSlot (newSignal emptyHeap).2) =
      some (stateBuiltHeap, some 0) ∧
    emplaceUser 1 stateBuiltHeap (stateSlot stateBuiltHeap (some 0)) 7 =
      some parentChildHeap ∧
    stateDestruct parentChildHeap (some 0) = parentChildHeap ∧
    has_handler parentChildHeap (stateSlot parentChildHeap (some 0)) = true ∧
    emit 2 (stateDestruct parentChildHeap (some 0)) 0 =
      some emittedAfterDestructHeap ∧
    countCalled 7 emittedAfterDestructHeap.trace = 1 := by
  decide

/-- C6 amended: a state does not own its child signal and the state
object's own destruction has no effect; the impl that holds the child
signal lives in the parent slot's handler storage, and clearing the parent
slot destroys the impl and the child signal, leaving the parent
connected-empty — both when the child is still empty and when a handler
`j` has since been installed in the child, in which case that handler's
cell is torn down with the child (the child is dead and no longer has a
handler). -/
theorem impl_owned_by_parent_slot (fuel fuel2 fuel3 : Nat) (h h' : Heap)
    (p j : Nat) (st : StateObj)
    (hc : mkState fuel h (signalSlot p) = some (h', st)) :
    stateDestruct h' st = h' ∧
    ∃ i c, st = some i ∧ stateSlot h' st = signalSlot c ∧
      (∃ h2, clear (fuel2+1) h' (signalSlot p) = some h2 ∧
        h2.signals[c]? = some SigState.dead ∧
        h2.impls[i]? = some none ∧
        h2.signals[p]? = some (SigState.live none)) ∧
      (∃ hI, emplaceUser fuel3 h' (signalSlot c) j = some hI ∧
        has_handler hI (signalSlot c) = true ∧
        ∃ h2, clear (fuel2+1) hI (signalSlot p) = some h2 ∧
          h2.signals[c]? = some SigState.dead ∧
          has_handler h2 (signalSlot c) = false ∧
          h2.impls[i]? = some none ∧
          h2.signals[p]? = some (SigState.live none)) := by
  obtain ⟨hst, hp, hslen, hilen, htr, hsigp, himpl, hsigc⟩ :=
    mkState_spec fuel h h' p st hc
  subst hst
  set i := h.impls.length
  set c := h.signals.length
  have hilt : i < h'.impls.length := by omega
  have hclt : c < h'.signals.length := by omega
  have hplt : p < h'.signals.length := by omega
  refine ⟨rfl, i, c, rfl, by simp [stateSlot, himpl, signalSlot], ?_, ?_⟩
  · have hdes : destroySig (fuel2+1) h' c =
        some (setSignal h' c SigState.dead) := by
      rw [destroySig, hsigc]
    have hbox : destroyHandlerBox (fuel2+1) h' (Handler.stateImpl i) =
        some (setImpl (setSignal h' c SigState.dead) i none) := by
      simp only [destroyHandlerBox, himpl, hdes]
    have hcl : clear (fuel2+1) h' (signalSlot p) =
        some (setSignal (setImpl (setSignal h' c SigState.dead) i none) p
          (SigState.live none)) := by
      simp only [clear, signalSlot, hsigp, hbox]
    refine ⟨_, hcl, ?_, ?_, ?_⟩
    · simp only [setSignal, setImpl]
      rw [List.getElem?_set_ne (by omega)]
      exact List.getElem?_set_self (by simpa using hclt)
    · simp only [setSignal, setImpl]
      exact List.getElem?_set_self (by simpa using hilt)
    · simp only [setSignal, setImpl]
      exact List.getElem?_set_self (by simp; omega)
  · have hemp : emplaceUser fuel3 h' (signalSlot c) j =
        some (setSignal h' c (SigState.live (some (Handler.user j)))) := by
      simp only [emplaceUser, signalSlot, hsigc]
    set hI := setSignal h' c (SigState.live (some (Handler.user j))) with hhI
    have hIp : hI.signals[p]? =
        some (SigState.live (some (Handler.stateImpl i))) := by
      rw [hhI]
      simp only [setSignal]
      rw [List.getElem?_set_ne (by omega)]
      exact hsigp
    have hIi : hI.impls[i]? =
        some (some { cancelled := false, signalId := c }) := himpl
    have hIc : hI.signals[c]? =
        some (SigState.live (some (Handler.user j))) := by
      rw [hhI]
      simp only [setSignal]
      exact List.getElem?_set_self (by simpa using hclt)
    have hdes2 : destroySig (fuel2+1) hI c =
        some (setSignal hI c SigState.dead) := by
      rw [destroySig, hIc]
    have hbox2 : destroyHandlerBox (fuel2+1) hI (Handler.stateImpl i) =
        some (setImpl (setSignal hI c SigState.dead) i none) := by
      simp only [destroyHandlerBox, hIi, hdes2]
    have hcl2 : clear (fuel2+1) hI (signalSlot p) =
        some (setSignal (setImpl (setSignal hI c SigState.dead) i none) p
          (SigState.live none)) := by
      simp only [clear, signalSlot, hIp, hbox2]
    have hc2dead : (setSignal (setImpl (setSignal hI c SigState.dead) i none) p
        (SigState.live none)).signals[c]? = some SigState.dead := by
      simp only [setSignal, setImpl]
      rw [List.getElem?_set_ne (by omega)]
      exact List.getElem?_set_self (by simp [hhI, setSignal]; omega)
    refine ⟨hI, hemp, by simp [has_handler, signalSlot, hIc], _, hcl2,
      hc2dead, ?_, ?_, ?_⟩
    · simp [has_handler, signalSlot, hc2dead]
    · simp only [setSignal, setImpl]
      exact List.getElem?_set_self
        (by simp only [hhI, setSignal, List.length_set]; simpa using hilt)
    · simp only [setSignal, setImpl]
      exact List.getElem?_set_self (by simp [hhI, setSignal]; omega)

/-- Witness for C6 (amended) at the one-signal heap. -/
theorem impl_owned_by_parent_slot_witness :
    mkState 1 { signals := [SigState.live none], impls := [], trace := [] }
        (signalSlot 0) = some (stateBuiltHeap, some 0) ∧
    stateDestruct stateBuiltHeap (some 0) = stateBuiltHeap :=
  ⟨by decide,
   (impl_owned_by_parent_slot 1 0 1
     { signals := [SigState.live none], impls := [], trace := [] }
     stateBuiltHeap 0 7 (some 0) (by decide)).1⟩

end AsioCancel
